import Mathlib

/-!
Verification of the sanetaka IR interpreter and compiler.

This file embeds, in Lean, the data model and the operations of the
`sntk_ir` interpreter (`src/sntk_ir/src/instruction.rs`,
`src/sntk_ir/src/interpreter.rs`) and the statement-truncation step of the
`sntk_compiler` lowering (`src/sntk_compiler/src/compiler.rs`), and proves
properties of them.

Modelling conventions, kept throughout:
* Rust `f64` is modelled as `ℚ`.  The properties proved here concern the
  dispatch structure of the evaluator, not rounding, NaN or infinities;
  the one numeric conversion the code performs (`index as usize`) is
  modelled by `f64AsUsize` below with the saturating behaviour of Rust's
  `as` cast on the values at issue.
* `HashMap<String, LiteralValue>` is modelled as an association list with
  first-match lookup and overwrite-on-insert, which gives the same
  observable `get`/`insert` behaviour.
* Source positions (`Position`), which the interpreter only threads
  through into error values, are dropped; errors are modelled by their
  kind.  Error kinds carry the offending values themselves where the
  source formats them with `to_string`.
* The interpreter's recursion is not structural (a `Call` evaluates a
  body taken from a runtime value), so evaluation takes a fuel parameter;
  the artificial result `OutOfFuel` marks exhaustion of the budget and
  has no counterpart in the source (which would instead consume host
  stack).
* The builtin registry (`sntk_ir`'s `builtin.rs`, not among the sources
  in view) is an abstract parameter `B : Builtins`; every theorem about
  calls holds for every registry.
-/

namespace Sanetaka

/-- Operator tokens. The source enum `TokenKind` has many more members;
this embedding keeps exactly the operators the interpreter dispatches on
(interpreter.rs lines 216-262), plus `Percent` as a representative of the
remaining tokens, which all reach the catch-all arms. -/
inductive TokenKind where
  | Plus | Minus | Asterisk | Slash | Percent
  | EQ | NEQ | LT | LTE | GT | GTE | Bang
  deriving DecidableEq

/-- Declared data types. The interpreter only carries the return type of a
function value around without inspecting it, so the embedding keeps a few
representative members of the source's `DataTypeKind`. -/
inductive DataTypeKind where
  | Number | String | Boolean | Void | Unknown
  deriving DecidableEq

mutual

/-- instruction.rs `IrExpression`. -/
inductive IrExpression where
  | Identifier (name : String)
  | Literal (value : LiteralValue)
  | Block (block : List Instruction)
  | If (condition : IrExpression) (consequence : IrExpression)
      (alternative : Option IrExpression)
  | Call (function : IrExpression) (arguments : List IrExpression)
  | Index (left : IrExpression) (index : IrExpression)
  | Prefix (operator : TokenKind) (right : IrExpression)
  | Infix (left : IrExpression) (operator : TokenKind) (right : IrExpression)

/-- instruction.rs `LiteralValue`. A `Function` carries its parameter
names (the interpreter reads only `parameter.name.value` of each
source-level `Parameter`, interpreter.rs line 171), its body, its declared
return type and an optional captured environment. -/
inductive LiteralValue where
  | Number (n : ℚ)
  | String (s : String)
  | Boolean (b : Bool)
  | Array (elements : List IrExpression)
  | Function (parameters : List String) (body : List Instruction)
      (returnType : DataTypeKind) (environment : Option IrEnvironment)

/-- interpreter.rs `IrEnvironment`: a frame of values plus an optional
parent. The source's `parent : Option<Box<IrEnvironment>>` is inlined
into the two constructors (`root` = no parent, `child values parent`);
this keeps recursion along the parent chain structural. -/
inductive IrEnvironment where
  | root (values : List (String × LiteralValue))
  | child (values : List (String × LiteralValue)) (parent : IrEnvironment)

/-- instruction.rs `InstructionType` (the variant names follow the
interpreter's match arms, interpreter.rs lines 93-107; `instruction.rs`
spells the first one `Storeidentifier`). The `position` field of the
surrounding `Instruction` struct is dropped, see the file comment. -/
inductive Instruction where
  | StoreName (name : String) (expression : IrExpression)
  | Return (expression : IrExpression)
  | Expression (expression : IrExpression)
  | None

end

/-- Runtime error kinds, from the error family of the `sntk_ir` crate as
the specification enumerates it (spec §7). `ArityMismatch` is listed
there; the interpreter in the sources constructs it nowhere.
`Unreachable` models the `unreachable!()` panic of interpreter.rs line
147, and `OutOfFuel` is the artifact of the fuel-based embedding. -/
inductive RuntimeErrorKind where
  | UndefinedVariable (name : String)
  | NotAFunction (value : LiteralValue)
  | NotAnArray (value : LiteralValue)
  | IndexOutOfBounds (index : Nat)
  | InvalidOperator (operator : TokenKind)
  | InvalidOperands (left : LiteralValue) (right : LiteralValue)
      (operator : TokenKind)
  | ArityMismatch (expected : Nat) (found : Nat)
  | Unreachable
  | OutOfFuel

/-- The builtin registry, `get_builtin_function` of `sntk_ir`'s
builtin.rs: a map from a name to a native function on evaluated argument
values. Its contents are abstract here; everything proved below holds for
every registry. -/
def Builtins : Type := String → Option (List LiteralValue → LiteralValue)

/-- First-match lookup in an association list; models
`HashMap::get` on `IrEnvironment::values`. -/
def lookupPairs : List (String × LiteralValue) → String → Option LiteralValue
  | [], _ => Option.none
  | (k, v) :: rest, name => if k = name then some v else lookupPairs rest name

/-- Overwrite-insert into an association list; models `HashMap::insert`. -/
def insertPair (values : List (String × LiteralValue)) (name : String)
    (value : LiteralValue) : List (String × LiteralValue) :=
  (name, value) :: values.filter (fun p => ¬(p.1 = name))

/-- interpreter.rs `IrEnvironment::new(parent)`: a fresh frame with empty
values and the given parent. -/
def IrEnvironment.new : Option IrEnvironment → IrEnvironment
  | Option.none => .root []
  | some parent => .child [] parent

/-- interpreter.rs `IrEnvironment::get` (lines 24-32): look the name up in
the own frame, fall back to the parent chain. -/
def IrEnvironment.get : IrEnvironment → String → Option LiteralValue
  | .root values, name =>
    (match lookupPairs values name with
      | some value => some value
      | Option.none => Option.none)
  | .child values parent, name =>
    (match lookupPairs values name with
      | some value => some value
      | Option.none => parent.get name)

/-- interpreter.rs `IrEnvironment::set` (lines 34-36): insert into the own
frame only; the parent is untouched. -/
def IrEnvironment.set : IrEnvironment → String → LiteralValue → IrEnvironment
  | .root values, name, value => .root (insertPair values name value)
  | .child values parent, name, value => .child (insertPair values name value) parent

/-- The own values of a frame. -/
def IrEnvironment.values : IrEnvironment → List (String × LiteralValue)
  | .root values => values
  | .child values _ => values

/-- The parent link of a frame, as the source's optional field. -/
def IrEnvironment.parent : IrEnvironment → Option IrEnvironment
  | .root _ => Option.none
  | .child _ parent => some parent

/-- The chain of value frames of an environment, leaf first. Statement
helper for the lookup property of `IrEnvironment.get`. -/
def IrEnvironment.frames : IrEnvironment → List (List (String × LiteralValue))
  | .root values => [values]
  | .child values parent => values :: parent.frames

/-- A sequence of `set` operations applied in order. Statement helper. -/
def applySets (env : IrEnvironment) (ops : List (String × LiteralValue)) :
    IrEnvironment :=
  ops.foldl (fun e p => e.set p.1 p.2) env

/-- Rust's `index as usize` on an `f64` (interpreter.rs line 206): the
`as` cast truncates toward zero and saturates, so every negative value
becomes `0`; nonnegative values truncate to their floor. (The cast also
saturates at `usize::MAX` and maps NaN to `0`; neither is representable
in the ℚ model and neither is at issue below.) -/
def f64AsUsize (n : ℚ) : Nat :=
  if n < 0 then 0 else n.floor.toNat

/-- The infix dispatch of `eval_expression` (interpreter.rs lines
225-262), on the already-evaluated operand values. -/
def evalInfix (operator : TokenKind) (left right : LiteralValue) :
    Except RuntimeErrorKind LiteralValue :=
  match left, right with
  | .Number l, .Number r =>
    match operator with
    | .Plus => .ok (.Number (l + r))
    | .Minus => .ok (.Number (l - r))
    | .Asterisk => .ok (.Number (l * r))
    | .Slash => .ok (.Number (l / r))
    | .EQ => .ok (.Boolean (decide (l = r)))
    | .NEQ => .ok (.Boolean (!decide (l = r)))
    | .LT => .ok (.Boolean (decide (l < r)))
    | .LTE => .ok (.Boolean (decide (l ≤ r)))
    | .GT => .ok (.Boolean (decide (l > r)))
    | .GTE => .ok (.Boolean (decide (l ≥ r)))
    | _ => .error (.InvalidOperator operator)
  | .String l, .String r =>
    match operator with
    | .Plus => .ok (.String (l ++ r))
    | .EQ => .ok (.Boolean (decide (l = r)))
    | .NEQ => .ok (.Boolean (!decide (l = r)))
    | .LT => .ok (.Boolean (decide (l < r)))
    | .LTE => .ok (.Boolean (decide (l ≤ r)))
    | .GT => .ok (.Boolean (decide (l > r)))
    | .GTE => .ok (.Boolean (decide (l ≥ r)))
    | _ => .error (.InvalidOperator operator)
  | .Boolean l, .Boolean r =>
    match operator with
    | .EQ => .ok (.Boolean (decide (l = r)))
    | .NEQ => .ok (.Boolean (!decide (l = r)))
    | _ => .error (.InvalidOperator operator)
  | l, r => .error (.InvalidOperands l r operator)

/-- Left-to-right evaluation of a list of expressions to values,
short-circuiting on the first error; models the
`collect::<Result<Vec<_>, _>>()` idiom of interpreter.rs lines 120-127
and 151-154. `ev` is the expression evaluator (at one fuel level down). -/
def runList (ev : IrExpression → Except RuntimeErrorKind LiteralValue) :
    List IrExpression → Except RuntimeErrorKind (List LiteralValue)
  | [] => .ok []
  | e :: rest => do
    let v ← ev e
    let vs ← runList ev rest
    .ok (v :: vs)

/-- interpreter.rs `eval_instruction` (lines 90-111): `StoreName`
evaluates and binds in the current frame, `Expression` evaluates and
discards, `Return` and `None` do nothing (the `Return` arm of the source
is an empty body with a commented-out debug print). The mutated
interpreter environment is the result. -/
def evalInstruction
    (ev : IrEnvironment → IrExpression → Except RuntimeErrorKind LiteralValue)
    (env : IrEnvironment) : Instruction → Except RuntimeErrorKind IrEnvironment
  | .StoreName name e => (ev env e).map (fun v => env.set name v)
  | .Expression e => (ev env e).map (fun _ => env)
  | .Return _ => .ok env
  | .None => .ok env

/-- interpreter.rs `eval` (lines 68-74): run the instructions in order,
threading the environment. -/
def evalInstructions
    (ev : IrEnvironment → IrExpression → Except RuntimeErrorKind LiteralValue) :
    IrEnvironment → List Instruction → Except RuntimeErrorKind IrEnvironment
  | env, [] => .ok env
  | env, i :: rest => do
    let env2 ← evalInstruction ev env i
    evalInstructions ev env2 rest

/-- interpreter.rs `last` (lines 76-88): inspect only the final
instruction of the list; when it is a `Return`, evaluate its expression
in the given (final) environment, otherwise the value is
`Boolean(false)`, also for an empty list. -/
def lastValue
    (ev : IrEnvironment → IrExpression → Except RuntimeErrorKind LiteralValue)
    (env : IrEnvironment) (instructions : List Instruction) :
    Except RuntimeErrorKind LiteralValue :=
  match instructions.getLast? with
  | some (.Return e) => ev env e
  | some _ => .ok (.Boolean false)
  | Option.none => .ok (.Boolean false)

/-- Positional parameter binding of interpreter.rs lines 181-183: the
`for` loop over `parameters.iter().zip(arguments.iter())`, each pair
written with `set`. `zip` stops at the shorter list: extra arguments are
dropped and surplus parameters stay unbound; no arity check exists. -/
def bindParameters (env : IrEnvironment)
    (pairs : List (String × LiteralValue)) : IrEnvironment :=
  pairs.foldl (fun e p => e.set p.1 p.2) env

/-- The result post-processing of a call, interpreter.rs lines 188-199:
every function result is re-wrapped with a fresh frame whose parent is
the function's own captured environment when present, and the call's
bound environment otherwise; non-function results pass through. -/
def wrapCallResult (environment : IrEnvironment) :
    LiteralValue → LiteralValue
  | .Function parameters body returnType rEnvironment =>
    .Function parameters body returnType
      (some (IrEnvironment.new (some (match rEnvironment with
        | some e => e
        | Option.none => environment))))
  | value => value

/-- The function-application part of the `Call` arm, interpreter.rs lines
169-199: the callee value must be a `Function`; its captured environment,
or a fresh child of the caller's current environment, is the call
environment; parameters are zip-bound; the body runs; the terminal value
is read as for blocks and post-processed by `wrapCallResult` with the
bound environment. -/
def applyFunction
    (ev : IrEnvironment → IrExpression → Except RuntimeErrorKind LiteralValue)
    (env : IrEnvironment) (callee : LiteralValue)
    (arguments : List LiteralValue) : Except RuntimeErrorKind LiteralValue :=
  match callee with
  | .Function parameters body _ environmentOpt =>
    let environment := (match environmentOpt with
      | some e => e
      | Option.none => IrEnvironment.new (some env))
    let environment := bindParameters environment (parameters.zip arguments)
    do
      let env2 ← evalInstructions ev environment body
      let result ← lastValue ev env2 body
      .ok (wrapCallResult environment result)
  | value => .error (.NotAFunction value)

/-- interpreter.rs `eval_expression` (lines 113-264), with fuel. Every
recursive evaluation happens at one fuel level down; the zero level
yields the embedding artifact `OutOfFuel`. -/
def evalExpression (B : Builtins) :
    Nat → IrEnvironment → IrExpression → Except RuntimeErrorKind LiteralValue
  | 0, _, _ => .error .OutOfFuel
  | fuel + 1, env, expression =>
    match expression with
    | .Identifier name =>
      (match env.get name with
        | some value => .ok value
        | Option.none => .error (.UndefinedVariable name))
    | .Literal value =>
      (match value with
        | .Array array =>
          (runList (evalExpression B fuel env) array).map
            (fun vs => .Array (vs.map IrExpression.Literal))
        | _ => .ok value)
    | .Block block => do
      let env2 ← evalInstructions (evalExpression B fuel)
        (IrEnvironment.new (some env)) block
      lastValue (evalExpression B fuel) env2 block
    | .If condition consequence alternative => do
      let c ← evalExpression B fuel env condition
      match c with
      | .Boolean true => evalExpression B fuel env consequence
      | .Boolean false =>
        (match alternative with
          | some alt => evalExpression B fuel env alt
          | Option.none => .ok (.Boolean false))
      | _ => .error .Unreachable
    | .Call function arguments => do
      let argumentValues ← runList (evalExpression B fuel env) arguments
      match function with
      | .Identifier name =>
        (match env.get name with
          | some value =>
            applyFunction (evalExpression B fuel) env value argumentValues
          | Option.none =>
            (match B name with
              | some f => .ok (f argumentValues)
              | Option.none => .error (.UndefinedVariable name)))
      | _ => do
        let value ← evalExpression B fuel env function
        applyFunction (evalExpression B fuel) env value argumentValues
    | .Index left index => do
      let l ← evalExpression B fuel env left
      let i ← evalExpression B fuel env index
      match l, i with
      | .Array array, .Number n =>
        (match array.get? (f64AsUsize n) with
          | some e => evalExpression B fuel env e
          | Option.none => .error (.IndexOutOfBounds (f64AsUsize n)))
      | l, _ => .error (.NotAnArray l)
    | .Prefix operator right => do
      let r ← evalExpression B fuel env right
      match operator, r with
      | .Minus, .Number n => .ok (.Number (-n))
      | .Bang, .Boolean b => .ok (.Boolean (!b))
      | operator, _ => .error (.InvalidOperator operator)
    | .Infix left operator right => do
      let l ← evalExpression B fuel env left
      let r ← evalExpression B fuel env right
      evalInfix operator l r

/-- The empty builtin registry, for concrete runs. -/
def B0 : Builtins := fun _ => Option.none

/-- The top-level environment of `IrInterpreter::new`: no values, no
parent. -/
def env0 : IrEnvironment := .root []

/-- A sample user function value bound under a name that a builtin could
also carry: it takes no parameters and returns `42`. Used to exhibit that
an environment binding shadows a builtin. -/
def printFn : LiteralValue :=
  .Function [] [.Return (.Literal (.Number 42))] .Number (some (.root []))

/-- A sample builtin registry that binds the name `print` to a native
function returning `Boolean(true)`. -/
def B1 : Builtins :=
  fun name => if name = "print"
    then some (fun _ => .Boolean true)
    else Option.none

/-- Whether a value is a `Function`. Statement helper. -/
def LiteralValue.isFunction : LiteralValue → Bool
  | .Function _ _ _ _ => true
  | _ => false

/-- Whether a value is a `Number`. Statement helper. -/
def LiteralValue.isNumber : LiteralValue → Bool
  | .Number _ => true
  | _ => false

/-- Whether an instruction is a `Return`. Statement helper. -/
def Instruction.isReturn : Instruction → Bool
  | .Return _ => true
  | _ => false

/-- Whether a result is the `ArityMismatch` runtime error. Statement
helper. -/
def isArityMismatchError {α : Type} : Except RuntimeErrorKind α → Bool
  | .error (.ArityMismatch _ _) => true
  | _ => false

/-- Whether the operand pair reaches one of the three typed arms of the
infix dispatch (both numbers, both strings, or both booleans). Statement
helper. -/
def infixOperandsSupported : LiteralValue → LiteralValue → Bool
  | .Number _, .Number _ => true
  | .String _, .String _ => true
  | .Boolean _, .Boolean _ => true
  | _, _ => false

/-- AST expressions, reduced to representative leaves: the
statement-truncation loop of compiler.rs (lines 184-193) never inspects
the payload of a statement, only its variant. -/
inductive AstExpression where
  | NumberLiteral (n : ℚ)
  | Identifier (name : String)
  deriving DecidableEq

/-- AST statements, as `compile_program` and the function-literal arm of
`compile_expression` distinguish them (compiler.rs lines 67-73 and
186-193): the four variants of `sntk_core`'s `Statement`, payloads
reduced to what keeps concrete statements distinguishable. -/
inductive Statement where
  | LetStatement (name : String) (value : AstExpression)
  | ReturnStatement (value : AstExpression)
  | TypeStatement (name : String)
  | ExpressionStatement (value : AstExpression)
  deriving DecidableEq

/-- Whether an AST statement is a `ReturnStatement`. Statement helper. -/
def Statement.isReturn : Statement → Bool
  | .ReturnStatement _ => true
  | _ => false

/-- The statement-selection loop of the `FunctionLiteral` arm of
`compile_expression` (compiler.rs lines 184-193): push source statements
in order; after pushing a `ReturnStatement`, break. The compiled function
body is `compile_block` of exactly this list. -/
def functionBodyStatements : List Statement → List Statement
  | [] => []
  | s :: rest =>
    match s with
    | .ReturnStatement v => [Statement.ReturnStatement v]
    | s => s :: functionBodyStatements rest

/-- Monadic bind on a success reduces to the continuation. -/
theorem ok_bind {α β : Type} (v : α) (f : α → Except RuntimeErrorKind β) :
    (Except.ok v >>= f) = f v := rfl

/-- Monadic bind on an error short-circuits. -/
theorem error_bind {α β : Type} (e : RuntimeErrorKind)
    (f : α → Except RuntimeErrorKind β) :
    ((Except.error e : Except RuntimeErrorKind α) >>= f) = .error e := rfl

/-- Mapping over a success applies the function. -/
theorem ok_map {α β : Type} (v : α) (f : α → β) :
    (Except.ok v : Except RuntimeErrorKind α).map f = .ok (f v) := rfl

/-- Mapping over an error keeps the error. -/
theorem error_map {α β : Type} (e : RuntimeErrorKind) (f : α → β) :
    (Except.error e : Except RuntimeErrorKind α).map f = .error e := rfl

/-- Lookup along the chain equals the first hit over the frame list. -/
theorem get_eq_frames : ∀ (env : IrEnvironment) (name : String),
    env.get name = env.frames.findSome? (fun f => lookupPairs f name)
  | .root values, name => by
    cases h : lookupPairs values name <;>
      simp [IrEnvironment.get, IrEnvironment.frames, List.findSome?, h]
  | .child values parent, name => by
    cases h : lookupPairs values name <;>
      simp [IrEnvironment.get, IrEnvironment.frames, List.findSome?, h,
        get_eq_frames parent name]

/-- C8: in an environment chain, `get` returns the binding of the nearest
frame that binds the name, walking parent links outward (`Option.none`
when no frame binds it); `set` writes only into the current leaf frame,
so any sequence of `set` operations leaves the parent of the written
environment unchanged. -/
theorem c8_environment_get_set :
    (∀ (env : IrEnvironment) (name : String),
      env.get name = env.frames.findSome? (fun f => lookupPairs f name)) ∧
    (∀ (env : IrEnvironment) (name : String) (value : LiteralValue),
      (env.set name value).parent = env.parent) ∧
    (∀ (env : IrEnvironment) (ops : List (String × LiteralValue)),
      (applySets env ops).parent = env.parent) := by
  refine ⟨?_, ?_, ?_⟩
  · exact fun env name => get_eq_frames env name
  · intro env name value
    cases env <;> rfl
  · intro env ops
    induction ops generalizing env with
    | nil => rfl
    | cons op rest ih =>
      have h : applySets env (op :: rest) = applySets (env.set op.1 op.2) rest := rfl
      rw [h, ih (env.set op.1 op.2)]
      cases env <;> rfl

/-- C7: lowering a function literal keeps exactly the source body's
statements up to and including the first `ReturnStatement`, dropping
everything after it; a body without a `ReturnStatement` is kept in
full. -/
theorem c7_function_body_truncation :
    (∀ (pre : List Statement) (r : Statement) (post : List Statement),
      (∀ s ∈ pre, s.isReturn = false) → r.isReturn = true →
      functionBodyStatements (pre ++ r :: post) = pre ++ [r]) ∧
    (∀ stmts : List Statement, (∀ s ∈ stmts, s.isReturn = false) →
      functionBodyStatements stmts = stmts) := by
  constructor
  · intro pre r post hpre hr
    induction pre with
    | nil =>
      cases r with
      | ReturnStatement v => rfl
      | LetStatement n v => simp [Statement.isReturn] at hr
      | TypeStatement n => simp [Statement.isReturn] at hr
      | ExpressionStatement v => simp [Statement.isReturn] at hr
    | cons s rest ih =>
      have hs : s.isReturn = false := hpre s (by simp)
      have hrest : ∀ t ∈ rest, t.isReturn = false := fun t ht => hpre t (by simp [ht])
      cases s with
      | ReturnStatement v => simp [Statement.isReturn] at hs
      | LetStatement n v => simpa [functionBodyStatements] using ih hrest
      | TypeStatement n => simpa [functionBodyStatements] using ih hrest
      | ExpressionStatement v => simpa [functionBodyStatements] using ih hrest
  · intro stmts h
    induction stmts with
    | nil => rfl
    | cons s rest ih =>
      have hs : s.isReturn = false := h s (by simp)
      have hrest : ∀ t ∈ rest, t.isReturn = false := fun t ht => h t (by simp [ht])
      cases s with
      | ReturnStatement v => simp [Statement.isReturn] at hs
      | LetStatement n v => simpa [functionBodyStatements] using ih hrest
      | TypeStatement n => simpa [functionBodyStatements] using ih hrest
      | ExpressionStatement v => simpa [functionBodyStatements] using ih hrest

/-- C7 witness: a body `let x = 5; return x; 1;` compiles to the first
two statements only. -/
theorem c7_function_body_truncation_witness :
    functionBodyStatements
      [Statement.LetStatement "x" (.NumberLiteral 5),
        Statement.ReturnStatement (.Identifier "x"),
        Statement.ExpressionStatement (.NumberLiteral 1)]
    = [Statement.LetStatement "x" (.NumberLiteral 5),
        Statement.ReturnStatement (.Identifier "x")] :=
  c7_function_body_truncation.1
    [Statement.LetStatement "x" (.NumberLiteral 5)]
    (Statement.ReturnStatement (.Identifier "x"))
    [Statement.ExpressionStatement (.NumberLiteral 1)]
    (by decide) (by decide)

/-- C5: evaluating an `Infix` evaluates both operands and dispatches on
their kinds: two numbers support `+ - * /` with number results and the
six comparisons with boolean results; two strings support `+` as
concatenation and the six lexicographic comparisons; two booleans support
only `==` and `!=`; an unsupported operator within a handled kind pair,
and every other operand combination, yield an error and no value. -/
theorem c5_infix_dispatch :
    (∀ (B : Builtins) (fuel : Nat) (env : IrEnvironment)
      (l r : IrExpression) (op : TokenKind) (lv rv : LiteralValue),
      evalExpression B fuel env l = .ok lv →
      evalExpression B fuel env r = .ok rv →
      evalExpression B (fuel + 1) env (.Infix l op r) = evalInfix op lv rv) ∧
    (∀ a b : ℚ,
      evalInfix .Plus (.Number a) (.Number b) = .ok (.Number (a + b)) ∧
      evalInfix .Minus (.Number a) (.Number b) = .ok (.Number (a - b)) ∧
      evalInfix .Asterisk (.Number a) (.Number b) = .ok (.Number (a * b)) ∧
      evalInfix .Slash (.Number a) (.Number b) = .ok (.Number (a / b)) ∧
      evalInfix .EQ (.Number a) (.Number b) = .ok (.Boolean (decide (a = b))) ∧
      evalInfix .NEQ (.Number a) (.Number b) = .ok (.Boolean (!decide (a = b))) ∧
      evalInfix .LT (.Number a) (.Number b) = .ok (.Boolean (decide (a < b))) ∧
      evalInfix .LTE (.Number a) (.Number b) = .ok (.Boolean (decide (a ≤ b))) ∧
      evalInfix .GT (.Number a) (.Number b) = .ok (.Boolean (decide (a > b))) ∧
      evalInfix .GTE (.Number a) (.Number b) = .ok (.Boolean (decide (a ≥ b)))) ∧
    (∀ s t : String,
      evalInfix .Plus (.String s) (.String t) = .ok (.String (s ++ t)) ∧
      evalInfix .EQ (.String s) (.String t) = .ok (.Boolean (decide (s = t))) ∧
      evalInfix .NEQ (.String s) (.String t) = .ok (.Boolean (!decide (s = t))) ∧
      evalInfix .LT (.String s) (.String t) = .ok (.Boolean (decide (s < t))) ∧
      evalInfix .LTE (.String s) (.String t) = .ok (.Boolean (decide (s ≤ t))) ∧
      evalInfix .GT (.String s) (.String t) = .ok (.Boolean (decide (s > t))) ∧
      evalInfix .GTE (.String s) (.String t) = .ok (.Boolean (decide (s ≥ t)))) ∧
    (∀ p q : Bool,
      evalInfix .EQ (.Boolean p) (.Boolean q) = .ok (.Boolean (decide (p = q))) ∧
      evalInfix .NEQ (.Boolean p) (.Boolean q) = .ok (.Boolean (!decide (p = q)))) ∧
    (∀ (op : TokenKind) (a b : ℚ),
      op ∉ [TokenKind.Plus, .Minus, .Asterisk, .Slash,
        .EQ, .NEQ, .LT, .LTE, .GT, .GTE] →
      evalInfix op (.Number a) (.Number b) = .error (.InvalidOperator op)) ∧
    (∀ (op : TokenKind) (s t : String),
      op ∉ [TokenKind.Plus, .EQ, .NEQ, .LT, .LTE, .GT, .GTE] →
      evalInfix op (.String s) (.String t) = .error (.InvalidOperator op)) ∧
    (∀ (op : TokenKind) (p q : Bool),
      op ∉ [TokenKind.EQ, .NEQ] →
      evalInfix op (.Boolean p) (.Boolean q) = .error (.InvalidOperator op)) ∧
    (∀ (op : TokenKind) (l r : LiteralValue),
      infixOperandsSupported l r = false →
      evalInfix op l r = .error (.InvalidOperands l r op)) := by
  refine ⟨?_, ?_, ?_, ?_, ?_, ?_, ?_, ?_⟩
  · intro B fuel env l r op lv rv hl hr
    simp [evalExpression, hl, hr, ok_bind]
  · exact fun a b =>
      ⟨rfl, rfl, rfl, rfl, rfl, rfl, rfl, rfl, rfl, rfl⟩
  · exact fun s t => ⟨rfl, rfl, rfl, rfl, rfl, rfl, rfl⟩
  · exact fun p q => ⟨rfl, rfl⟩
  · intro op a b h
    cases op <;> first | rfl | exact absurd (by decide) h
  · intro op s t h
    cases op <;> first | rfl | exact absurd (by decide) h
  · intro op p q h
    cases op <;> first | rfl | exact absurd (by decide) h
  · intro op l r h
    cases l <;> cases r <;>
      first | rfl | simp [infixOperandsSupported] at h

/-- C5 witness: `1 < 2` dispatches through the number arm, and `1 + true`
is the `InvalidOperands` error. -/
theorem c5_infix_dispatch_witness :
    (evalExpression B0 2 env0
      (.Infix (.Literal (.Number 1)) .LT (.Literal (.Number 2)))
      = evalInfix .LT (.Number 1) (.Number 2)) ∧
    evalInfix .Plus (.Number 1) (.Boolean true)
      = .error (.InvalidOperands (.Number 1) (.Boolean true) .Plus) :=
  ⟨c5_infix_dispatch.1 B0 1 env0 _ _ .LT _ _ rfl rfl,
    c5_infix_dispatch.2.2.2.2.2.2.2 .Plus (.Number 1) (.Boolean true) rfl⟩

/-- C6: indexing an array value with a number truncates the number to an
unsigned integer; an in-range position evaluates the element expression
at that position, an out-of-range position is the `IndexOutOfBounds`
error carrying the truncated index. -/
theorem c6_index_semantics :
    ∀ (B : Builtins) (fuel : Nat) (env : IrEnvironment)
      (left index : IrExpression) (elts : List IrExpression) (n : ℚ),
      evalExpression B fuel env left = .ok (.Array elts) →
      evalExpression B fuel env index = .ok (.Number n) →
      ((∀ e, elts.get? (f64AsUsize n) = some e →
        evalExpression B (fuel + 1) env (.Index left index)
          = evalExpression B fuel env e) ∧
      (elts.get? (f64AsUsize n) = Option.none →
        evalExpression B (fuel + 1) env (.Index left index)
          = .error (.IndexOutOfBounds (f64AsUsize n)))) := by
  intro B fuel env left index elts n hleft hindex
  constructor
  · intro e he
    rw [List.get?_eq_getElem?] at he
    simp [evalExpression, hleft, hindex, ok_bind, he]
  · intro he
    rw [List.get?_eq_getElem?] at he
    simp [evalExpression, hleft, hindex, ok_bind, he]

/-- C6 witness: `[1,2,3][9]` fails with `IndexOutOfBounds(9)`. -/
theorem c6_index_semantics_witness :
    List.get? [IrExpression.Literal (.Number 1), .Literal (.Number 2),
        .Literal (.Number 3)] (f64AsUsize 9) = Option.none ∧
    evalExpression B0 3 env0
      (.Index
        (.Literal (.Array [.Literal (.Number 1), .Literal (.Number 2),
          .Literal (.Number 3)]))
        (.Literal (.Number 9)))
      = .error (.IndexOutOfBounds 9) :=
  ⟨rfl,
    (c6_index_semantics B0 2 env0
      (.Literal (.Array [.Literal (.Number 1), .Literal (.Number 2),
        .Literal (.Number 3)]))
      (.Literal (.Number 9))
      [.Literal (.Number 1), .Literal (.Number 2), .Literal (.Number 3)]
      9 rfl rfl).2 rfl⟩

/-- C9: indexing an array value with a non-number value fails with the
`NotAnArray` error naming the array container (the catch-all arm of the
index match binds the container), not with an error about the index. -/
theorem c9_index_non_number :
    ∀ (B : Builtins) (fuel : Nat) (env : IrEnvironment)
      (left index : IrExpression) (elts : List IrExpression)
      (v : LiteralValue),
      evalExpression B fuel env left = .ok (.Array elts) →
      evalExpression B fuel env index = .ok v →
      v.isNumber = false →
      evalExpression B (fuel + 1) env (.Index left index)
        = .error (.NotAnArray (.Array elts)) := by
  intro B fuel env left index elts v hleft hindex hv
  cases v with
  | Number n => simp [LiteralValue.isNumber] at hv
  | String s => simp [evalExpression, hleft, hindex, ok_bind]
  | Boolean b => simp [evalExpression, hleft, hindex, ok_bind]
  | Array a => simp [evalExpression, hleft, hindex, ok_bind]
  | Function p b r e => simp [evalExpression, hleft, hindex, ok_bind]

/-- C9 witness: `[1][true]` fails with `NotAnArray` carrying the array. -/
theorem c9_index_non_number_witness :
    LiteralValue.isNumber (.Boolean true) = false ∧
    evalExpression B0 3 env0
      (.Index (.Literal (.Array [.Literal (.Number 1)]))
        (.Literal (.Boolean true)))
      = .error (.NotAnArray (.Array [.Literal (.Number 1)])) :=
  ⟨rfl, c9_index_non_number B0 2 env0 _ _ _ _ rfl rfl rfl⟩

/-- C10: indexing a non-empty array with a negative number saturates the
float-to-unsigned truncation at zero, so the first element expression is
evaluated instead of an `IndexOutOfBounds` error being raised. -/
theorem c10_negative_index_first_element :
    ∀ (B : Builtins) (fuel : Nat) (env : IrEnvironment)
      (left index : IrExpression) (e : IrExpression)
      (rest : List IrExpression) (n : ℚ),
      evalExpression B fuel env left = .ok (.Array (e :: rest)) →
      evalExpression B fuel env index = .ok (.Number n) →
      n < 0 →
      evalExpression B (fuel + 1) env (.Index left index)
        = evalExpression B fuel env e := by
  intro B fuel env left index e rest n hleft hindex hn
  have hk : f64AsUsize n = 0 := if_pos hn
  simp [evalExpression, hleft, hindex, ok_bind, hk]

/-- C10 witness: `[7,2][-1]` evaluates to the first element, `7`. -/
theorem c10_negative_index_first_element_witness :
    ((-1 : ℚ) < 0) ∧
    evalExpression B0 3 env0
      (.Index (.Literal (.Array [.Literal (.Number 7), .Literal (.Number 2)]))
        (.Literal (.Number (-1))))
      = evalExpression B0 2 env0 (.Literal (.Number 7)) ∧
    evalExpression B0 2 env0 (.Literal (.Number 7)) = .ok (.Number 7) :=
  ⟨by decide,
    c10_negative_index_first_element B0 2 env0 _ _ _ _ (-1) rfl rfl (by decide),
    rfl⟩

/-- C3: a `Call` whose callee is an `Identifier` first looks the name up
in the environment chain; a hit is applied as the function (so an
environment binding shadows any builtin of the same name), a miss falls
back to the builtin registry, and only when the registry also misses does
the call fail with `UndefinedVariable`. -/
theorem c3_call_identifier_resolution :
    ∀ (B : Builtins) (fuel : Nat) (env : IrEnvironment) (name : String)
      (args : List IrExpression) (vs : List LiteralValue),
      runList (evalExpression B fuel env) args = .ok vs →
      ((∀ v, env.get name = some v →
        evalExpression B (fuel + 1) env (.Call (.Identifier name) args)
          = applyFunction (evalExpression B fuel) env v vs) ∧
      (env.get name = Option.none → ∀ bf, B name = some bf →
        evalExpression B (fuel + 1) env (.Call (.Identifier name) args)
          = .ok (bf vs)) ∧
      (env.get name = Option.none → B name = Option.none →
        evalExpression B (fuel + 1) env (.Call (.Identifier name) args)
          = .error (.UndefinedVariable name))) := by
  intro B fuel env name args vs hargs
  refine ⟨?_, ?_, ?_⟩
  · intro v hv
    simp [evalExpression, hargs, ok_bind, hv]
  · intro hv bf hbf
    simp [evalExpression, hargs, ok_bind, hv, hbf]
  · intro hv hbf
    simp [evalExpression, hargs, ok_bind, hv, hbf]

/-- C3 witness: with `print` bound in the environment to a user function
returning `42` and a builtin `print` returning `Boolean(true)` in the
registry, the call goes to the user function: the environment shadows the
builtin. -/
theorem c3_call_identifier_resolution_witness :
    (IrEnvironment.root [("print", printFn)]).get "print" = some printFn ∧
    evalExpression B1 2 (.root [("print", printFn)])
      (.Call (.Identifier "print") [])
      = applyFunction (evalExpression B1 1) (.root [("print", printFn)])
          printFn [] ∧
    applyFunction (evalExpression B1 1) (.root [("print", printFn)])
      printFn [] = .ok (.Number 42) :=
  ⟨rfl,
    (c3_call_identifier_resolution B1 1 (.root [("print", printFn)])
      "print" [] [] rfl).1 printFn rfl,
    rfl⟩

/-- C4 counterexample: a block whose `Return` is followed by a further
instruction evaluates to `Boolean(false)`, not to the value of its last
`Return` instruction. -/
theorem c4_block_counterexample :
    evalExpression B0 4 env0
      (.Block [.Return (.Literal (.Number 1)),
        .Expression (.Literal (.Boolean true))])
      = .ok (.Boolean false) ∧
    evalExpression B0 4 env0
      (.Block [.Return (.Literal (.Number 1)),
        .Expression (.Literal (.Boolean true))])
      ≠ .ok (.Number 1) := by
  have h0 : evalExpression B0 4 env0
      (.Block [.Return (.Literal (.Number 1)),
        .Expression (.Literal (.Boolean true))])
      = .ok (.Boolean false) := rfl
  refine ⟨h0, ?_⟩
  rw [h0]
  simp

/-- C4 (amended): a `Block` runs its instructions in a fresh child of the
current environment; its value is the value of the final instruction's
`Return` expression when the final instruction is a `Return`, and
`Boolean(false)` otherwise — also when a `Return` occurs earlier in the
block, and for the empty block. -/
theorem c4_block_semantics :
    (∀ (B : Builtins) (fuel : Nat) (env env2 : IrEnvironment)
      (block : List Instruction),
      evalInstructions (evalExpression B fuel)
        (IrEnvironment.new (some env)) block = .ok env2 →
      evalExpression B (fuel + 1) env (.Block block)
        = lastValue (evalExpression B fuel) env2 block) ∧
    (∀ (ev : IrEnvironment → IrExpression → Except RuntimeErrorKind LiteralValue)
      (env : IrEnvironment) (block : List Instruction) (e : IrExpression),
      block.getLast? = some (.Return e) →
      lastValue ev env block = ev env e) ∧
    (∀ (ev : IrEnvironment → IrExpression → Except RuntimeErrorKind LiteralValue)
      (env : IrEnvironment) (block : List Instruction) (i : Instruction),
      block.getLast? = some i → i.isReturn = false →
      lastValue ev env block = .ok (.Boolean false)) ∧
    (∀ (ev : IrEnvironment → IrExpression → Except RuntimeErrorKind LiteralValue)
      (env : IrEnvironment),
      lastValue ev env [] = .ok (.Boolean false)) := by
  refine ⟨?_, ?_, ?_, ?_⟩
  · intro B fuel env env2 block h
    simp [evalExpression, h, ok_bind]
  · intro ev env block e h
    rw [lastValue, h]
  · intro ev env block i h hi
    rw [lastValue, h]
    cases i with
    | Return e => simp [Instruction.isReturn] at hi
    | StoreName n e => rfl
    | Expression e => rfl
    | None => rfl
  · intro ev env
    rfl

/-- C4 witness: a block ending in `Return 1` evaluates to `1`. -/
theorem c4_block_semantics_witness :
    evalInstructions (evalExpression B0 3) (IrEnvironment.new (some env0))
      [Instruction.StoreName "x" (.Literal (.Number 1)),
        .Return (.Identifier "x")]
      = .ok (IrEnvironment.child [("x", .Number 1)] (.root [])) ∧
    evalExpression B0 4 env0
      (.Block [Instruction.StoreName "x" (.Literal (.Number 1)),
        .Return (.Identifier "x")])
      = lastValue (evalExpression B0 3)
          (IrEnvironment.child [("x", .Number 1)] (.root []))
          [Instruction.StoreName "x" (.Literal (.Number 1)),
            .Return (.Identifier "x")] ∧
    lastValue (evalExpression B0 3)
      (IrEnvironment.child [("x", .Number 1)] (.root []))
      [Instruction.StoreName "x" (.Literal (.Number 1)),
        .Return (.Identifier "x")]
      = .ok (.Number 1) :=
  ⟨rfl,
    c4_block_semantics.1 B0 3 env0
      (IrEnvironment.child [("x", .Number 1)] (.root []))
      [Instruction.StoreName "x" (.Literal (.Number 1)),
        .Return (.Identifier "x")] rfl,
    rfl⟩

/-- C2 counterexample: a call whose body's terminal value is a function
that already carries a captured environment does not return that function
unchanged; the evaluator re-wraps it with a fresh frame on top of its
captured environment. -/
theorem c2_rewrap_counterexample :
    evalExpression B0 5 env0
      (.Call (.Literal (.Function []
        [.Return (.Literal (.Function [] [] .Number
          (some (.root [("marker", .Number 7)]))))]
        .Number (some (.root [])))) [])
      = .ok (.Function [] [] .Number
          (some (.child [] (.root [("marker", .Number 7)])))) ∧
    evalExpression B0 5 env0
      (.Call (.Literal (.Function []
        [.Return (.Literal (.Function [] [] .Number
          (some (.root [("marker", .Number 7)]))))]
        .Number (some (.root [])))) [])
      ≠ .ok (.Function [] [] .Number
          (some (.root [("marker", .Number 7)]))) := by
  have h0 : evalExpression B0 5 env0
      (.Call (.Literal (.Function []
        [.Return (.Literal (.Function [] [] .Number
          (some (.root [("marker", .Number 7)]))))]
        .Number (some (.root [])))) [])
      = .ok (.Function [] [] .Number
          (some (.child [] (.root [("marker", .Number 7)])))) := rfl
  refine ⟨h0, ?_⟩
  rw [h0]
  simp

/-- C2 (amended): the call result post-processing re-wraps every function
result, not only those without a captured environment: the returned
function's captured environment becomes a fresh frame whose parent is the
function's own captured environment when it has one, and otherwise the
call's bound environment (the captured-or-fresh frame after parameter
binding) — not the caller's current environment. Only a non-function
result is returned unchanged. -/
theorem c2_call_result_rewrap :
    (∀ (B : Builtins) (fuel : Nat) (env env2 : IrEnvironment)
      (params : List String) (body : List Instruction) (rt : DataTypeKind)
      (cEnv : IrEnvironment) (args : List IrExpression)
      (vs : List LiteralValue) (r : LiteralValue),
      runList (evalExpression B fuel env) args = .ok vs →
      evalExpression B fuel env
        (.Literal (.Function params body rt (some cEnv)))
        = .ok (.Function params body rt (some cEnv)) →
      evalInstructions (evalExpression B fuel)
        (bindParameters cEnv (params.zip vs)) body = .ok env2 →
      lastValue (evalExpression B fuel) env2 body = .ok r →
      evalExpression B (fuel + 1) env
        (.Call (.Literal (.Function params body rt (some cEnv))) args)
        = .ok (wrapCallResult (bindParameters cEnv (params.zip vs)) r)) ∧
    (∀ (benv : IrEnvironment) (ps : List String) (bd : List Instruction)
      (rt : DataTypeKind) (e : IrEnvironment),
      wrapCallResult benv (.Function ps bd rt (some e))
        = .Function ps bd rt (some (IrEnvironment.new (some e)))) ∧
    (∀ (benv : IrEnvironment) (ps : List String) (bd : List Instruction)
      (rt : DataTypeKind),
      wrapCallResult benv (.Function ps bd rt Option.none)
        = .Function ps bd rt (some (IrEnvironment.new (some benv)))) ∧
    (∀ (benv : IrEnvironment) (v : LiteralValue),
      v.isFunction = false → wrapCallResult benv v = v) := by
  refine ⟨?_, ?_, ?_, ?_⟩
  · intro B fuel env env2 params body rt cEnv args vs r hargs hfn hbody hlast
    simp [evalExpression, hargs, ok_bind, applyFunction, hfn, hbody, hlast]
  · intro benv ps bd rt e
    rfl
  · intro benv ps bd rt
    rfl
  · intro benv v hv
    cases v with
    | Function p b r e => simp [LiteralValue.isFunction] at hv
    | Number n => rfl
    | String s => rfl
    | Boolean b => rfl
    | Array a => rfl

/-- C2 witness: rewrapping at the call whose body returns a bare
function: the result captures a fresh frame over the bound call
environment. -/
theorem c2_call_result_rewrap_witness :
    evalExpression B0 5 env0
      (.Call (.Literal (.Function ["n"]
        [.Return (.Literal (.Function [] [.Return (.Identifier "n")]
          .Number Option.none))]
        .Number (some (.root [])))) [.Literal (.Number 3)])
      = .ok (wrapCallResult
          (bindParameters (.root []) (List.zip ["n"] [.Number 3]))
          (.Function [] [.Return (.Identifier "n")] .Number Option.none)) ∧
    wrapCallResult (bindParameters (.root []) (List.zip ["n"] [.Number 3]))
      (.Function [] [.Return (.Identifier "n")] .Number Option.none)
      = .Function [] [.Return (.Identifier "n")] .Number
          (some (.child [] (.root [("n", .Number 3)]))) :=
  ⟨c2_call_result_rewrap.1 B0 4 env0 (.root [("n", .Number 3)])
      ["n"] [.Return (.Literal (.Function [] [.Return (.Identifier "n")]
        .Number Option.none))]
      .Number (.root []) [.Literal (.Number 3)] [.Number 3]
      (.Function [] [.Return (.Identifier "n")] .Number Option.none)
      rfl rfl rfl rfl,
    rfl⟩

/-- Bind preserves freedom from the arity error. -/
theorem bind_no_arity {α β : Type} (x : Except RuntimeErrorKind α)
    (f : α → Except RuntimeErrorKind β)
    (hx : isArityMismatchError x = false)
    (hf : ∀ v, isArityMismatchError (f v) = false) :
    isArityMismatchError (x >>= f) = false := by
  cases x with
  | error e =>
    cases e <;> first | rfl | simp [isArityMismatchError] at hx
  | ok v => simpa [ok_bind] using hf v

/-- Map preserves freedom from the arity error. -/
theorem map_no_arity {α β : Type} (x : Except RuntimeErrorKind α) (f : α → β)
    (hx : isArityMismatchError x = false) :
    isArityMismatchError (x.map f) = false := by
  cases x with
  | error e =>
    cases e <;> first | rfl | simp [isArityMismatchError] at hx
  | ok v => rfl

/-- Argument-list evaluation never produces the arity error when the
expression evaluator does not. -/
theorem runList_no_arity
    (ev : IrExpression → Except RuntimeErrorKind LiteralValue)
    (hev : ∀ e, isArityMismatchError (ev e) = false) :
    ∀ es, isArityMismatchError (runList ev es) = false := by
  intro es
  induction es with
  | nil => rfl
  | cons e rest ih =>
    rw [runList]
    exact bind_no_arity _ _ (hev e)
      (fun v => bind_no_arity _ _ ih (fun vs => rfl))

/-- A single instruction never produces the arity error when the
expression evaluator does not. -/
theorem evalInstruction_no_arity
    (ev : IrEnvironment → IrExpression → Except RuntimeErrorKind LiteralValue)
    (hev : ∀ env e, isArityMismatchError (ev env e) = false)
    (env : IrEnvironment) (i : Instruction) :
    isArityMismatchError (evalInstruction ev env i) = false := by
  cases i with
  | StoreName n e => exact map_no_arity _ _ (hev env e)
  | Expression e => exact map_no_arity _ _ (hev env e)
  | Return e => rfl
  | None => rfl

/-- An instruction sequence never produces the arity error when the
expression evaluator does not. -/
theorem evalInstructions_no_arity
    (ev : IrEnvironment → IrExpression → Except RuntimeErrorKind LiteralValue)
    (hev : ∀ env e, isArityMismatchError (ev env e) = false) :
    ∀ (env : IrEnvironment) (instrs : List Instruction),
    isArityMismatchError (evalInstructions ev env instrs) = false := by
  intro env instrs
  induction instrs generalizing env with
  | nil => rfl
  | cons i rest ih =>
    rw [evalInstructions]
    exact bind_no_arity _ _ (evalInstruction_no_arity ev hev env i)
      (fun env2 => ih env2)

/-- Reading the terminal value never produces the arity error when the
expression evaluator does not. -/
theorem lastValue_no_arity
    (ev : IrEnvironment → IrExpression → Except RuntimeErrorKind LiteralValue)
    (hev : ∀ env e, isArityMismatchError (ev env e) = false)
    (env : IrEnvironment) (instrs : List Instruction) :
    isArityMismatchError (lastValue ev env instrs) = false := by
  cases h : instrs.getLast? with
  | none => simp [lastValue, h, isArityMismatchError]
  | some i =>
    cases i with
    | Return e => simpa [lastValue, h] using hev env e
    | StoreName n e => simp [lastValue, h, isArityMismatchError]
    | Expression e => simp [lastValue, h, isArityMismatchError]
    | None => simp [lastValue, h, isArityMismatchError]

/-- Function application never produces the arity error when the
expression evaluator does not. -/
theorem applyFunction_no_arity
    (ev : IrEnvironment → IrExpression → Except RuntimeErrorKind LiteralValue)
    (hev : ∀ env e, isArityMismatchError (ev env e) = false)
    (env : IrEnvironment) (callee : LiteralValue)
    (args : List LiteralValue) :
    isArityMismatchError (applyFunction ev env callee args) = false := by
  cases callee with
  | Function params body rt envOpt =>
    simp only [applyFunction]
    exact bind_no_arity _ _ (evalInstructions_no_arity ev hev _ body)
      (fun env2 => bind_no_arity _ _ (lastValue_no_arity ev hev env2 body)
        (fun r => rfl))
  | Number n => rfl
  | String s => rfl
  | Boolean b => rfl
  | Array a => rfl

/-- The infix dispatch never produces the arity error. -/
theorem evalInfix_no_arity (op : TokenKind) (l r : LiteralValue) :
    isArityMismatchError (evalInfix op l r) = false := by
  cases l <;> cases r <;> cases op <;> rfl

/-- C1 (amended): the evaluator performs no arity check at all: no
evaluation ever fails with `ArityMismatch`; parameters are bound
positionally by zipping, which drops extra arguments and leaves surplus
parameters unbound, and the body executes with that partial binding. -/
theorem c1_no_arity_check :
    ∀ (B : Builtins) (fuel : Nat) (env : IrEnvironment) (e : IrExpression),
      isArityMismatchError (evalExpression B fuel env e) = false := by
  intro B fuel
  induction fuel with
  | zero => intro env e; rfl
  | succ fuel ih =>
    intro env e
    cases e with
    | Identifier name =>
      simp only [evalExpression]
      cases h : env.get name with
      | some v => simp [h, isArityMismatchError]
      | none => simp [h, isArityMismatchError]
    | Literal value =>
      cases value with
      | Array arr =>
        simp only [evalExpression]
        exact map_no_arity _ _ (runList_no_arity _ (fun e => ih env e) arr)
      | Number n => rfl
      | String s => rfl
      | Boolean b => rfl
      | Function p b r en => rfl
    | Block block =>
      simp only [evalExpression]
      exact bind_no_arity _ _
        (evalInstructions_no_arity _ (fun env e => ih env e) _ block)
        (fun env2 => lastValue_no_arity _ (fun env e => ih env e) env2 block)
    | If c t a =>
      simp only [evalExpression]
      refine bind_no_arity _ _ (ih env c) (fun v => ?_)
      cases v with
      | Boolean b =>
        cases b with
        | true => exact ih env t
        | false =>
          cases a with
          | some alt => exact ih env alt
          | none => rfl
      | Number n => rfl
      | String s => rfl
      | Array arr => rfl
      | Function p bd r en => rfl
    | Call f args =>
      simp only [evalExpression]
      refine bind_no_arity _ _ (runList_no_arity _ (fun e => ih env e) args)
        (fun vs => ?_)
      cases f with
      | Identifier name =>
        cases h : env.get name with
        | some v =>
          simpa [h] using
            applyFunction_no_arity _ (fun env e => ih env e) env v vs
        | none =>
          cases hb : B name with
          | some bf => simp [h, hb, isArityMismatchError]
          | none => simp [h, hb, isArityMismatchError]
      | Literal v =>
        exact bind_no_arity _ _ (ih env _)
          (fun value => applyFunction_no_arity _ (fun env e => ih env e) env value vs)
      | Block b =>
        exact bind_no_arity _ _ (ih env _)
          (fun value => applyFunction_no_arity _ (fun env e => ih env e) env value vs)
      | If c t a =>
        exact bind_no_arity _ _ (ih env _)
          (fun value => applyFunction_no_arity _ (fun env e => ih env e) env value vs)
      | Call g as =>
        exact bind_no_arity _ _ (ih env _)
          (fun value => applyFunction_no_arity _ (fun env e => ih env e) env value vs)
      | Index l i =>
        exact bind_no_arity _ _ (ih env _)
          (fun value => applyFunction_no_arity _ (fun env e => ih env e) env value vs)
      | Prefix op r =>
        exact bind_no_arity _ _ (ih env _)
          (fun value => applyFunction_no_arity _ (fun env e => ih env e) env value vs)
      | Infix l op r =>
        exact bind_no_arity _ _ (ih env _)
          (fun value => applyFunction_no_arity _ (fun env e => ih env e) env value vs)
    | Index l i =>
      simp only [evalExpression]
      refine bind_no_arity _ _ (ih env l) (fun lv => ?_)
      refine bind_no_arity _ _ (ih env i) (fun iv => ?_)
      cases lv with
      | Array arr =>
        cases iv with
        | Number n =>
          cases h : arr[f64AsUsize n]? with
          | some e => simpa [h] using ih env e
          | none => simp [h, isArityMismatchError]
        | String s => rfl
        | Boolean b => rfl
        | Array a2 => rfl
        | Function p bd r en => rfl
      | Number n => cases iv <;> rfl
      | String s => cases iv <;> rfl
      | Boolean b => cases iv <;> rfl
      | Function p bd r en => cases iv <;> rfl
    | Prefix op r =>
      simp only [evalExpression]
      refine bind_no_arity _ _ (ih env r) (fun rv => ?_)
      cases op <;> cases rv <;> rfl
    | Infix l op r =>
      simp only [evalExpression]
      refine bind_no_arity _ _ (ih env l) (fun lv => ?_)
      refine bind_no_arity _ _ (ih env r) (fun rv => ?_)
      exact evalInfix_no_arity op lv rv

/-- C1 counterexample: calling a two-parameter function with a single
argument does not fail at all, let alone with `ArityMismatch`: the body
runs with the partial binding and the call returns the bound value. -/
theorem c1_arity_counterexample :
    evalExpression B0 3 env0
      (.Call (.Literal (.Function ["x", "y"] [.Return (.Identifier "x")]
        .Number (some (.root [])))) [.Literal (.Number 1)])
      = .ok (.Number 1) ∧
    isArityMismatchError (evalExpression B0 3 env0
      (.Call (.Literal (.Function ["x", "y"] [.Return (.Identifier "x")]
        .Number (some (.root [])))) [.Literal (.Number 1)]))
      = false :=
  ⟨rfl, rfl⟩

end Sanetaka
